import Mathlib

/-
  Verification development for eeschema/dialogs/dialog_netlist.cpp (KiCad),
  the netlist-generation dialog.  Strings are modelled as lists of
  characters; the wxConfig key/value store is modelled as functions from
  the numeric key suffix to the stored string; notebook pages are records
  carrying the fields of NETLIST_PAGE_DIALOG that the dialog logic reads.
-/

namespace DialogNetlist

/-- Strings (wxString) are modelled as lists of characters. -/
abbrev Str := List Char

/-- Conversion from Lean string literals to the model's strings. -/
def str (s : String) : Str := s.data

/-- Netlist type identifiers (NETLIST_TYPE_ID).  The dialog distinguishes
the four built-in formats and the custom formats NET_TYPE_CUSTOM1 + i;
`custom i` stands for NET_TYPE_CUSTOM1 + i. -/
inductive NETLIST_TYPE_ID where
  | pcbnew
  | orcadpcb2
  | cadstar
  | spice
  | custom (i : Nat)
deriving DecidableEq, Repr, Inhabited

/-- File-extension constant NetlistFileExtension from
wildcards_and_files_ext (value "net" in the host application);
theorems refer to this definition by name, not to its text. -/
def NetlistFileExtension : Str := str "net"

/-- Wildcard string returned by SpiceNetlistFileWildcard(). -/
def SpiceNetlistFileWildcard : Str := str "SPICE netlist file (.cir)|*.cir"

/-- Wildcard string returned by CadstarNetlistFileWildcard(). -/
def CadstarNetlistFileWildcard : Str := str "CadStar netlist file (.frp)|*.frp"

/-- Wildcard string returned by NetlistFileWildcard(). -/
def NetlistFileWildcard : Str := str "KiCad netlist file (.net)|*.net"

/-- Wildcard string returned by AllFilesWildcard(). -/
def AllFilesWildcard : Str := str "All files (*)|*"

/-- Result of NETLIST_DIALOG::FilenamePrms: the boolean return value and
the two strings assigned through the aExt / aWildCard out-parameters. -/
structure FilenamePrmsResult where
  ret : Bool
  ext : Str
  wildcard : Str
deriving DecidableEq, Repr

/-- NETLIST_DIALOG::FilenamePrms.  fileExt starts as the empty wxString
and the custom (default) branch never assigns it. -/
def FilenamePrms (aNetTypeId : NETLIST_TYPE_ID) : FilenamePrmsResult :=
  match aNetTypeId with
  | .spice => ⟨true, str "cir", SpiceNetlistFileWildcard⟩
  | .cadstar => ⟨true, str "frp", CadstarNetlistFileWildcard⟩
  | .pcbnew => ⟨true, NetlistFileExtension, NetlistFileWildcard⟩
  | .orcadpcb2 => ⟨true, NetlistFileExtension, NetlistFileWildcard⟩
  | .custom _ => ⟨false, [], AllFilesWildcard⟩

/-- POSIX character class [[:alnum:]]: ASCII letters and digits. -/
def isAlnumCh (c : Char) : Bool := c.isAlpha || c.isDigit

/-- Boolean test that p is an initial segment of s. -/
def startsWith : Str → Str → Bool
  | [], _ => true
  | _ :: _, [] => false
  | p :: ps, s :: ss => p == s && startsWith ps ss

/-- The literal text ".xslt" followed by a double quote. -/
def xsltQuote : Str := ['.', 'x', 's', 'l', 't', '"']

/-- The literal text ".xsl" followed by a double quote. -/
def xslQuote : Str := ['.', 'x', 's', 'l', '"']

/-- The part of the extension regex that follows the captured group:
the fragment \.xslt?" — a dot, "xsl", an optional 't', a double quote.
The trailing .* of the pattern imposes no further constraint. -/
def matchAfterGroup (s : Str) : Bool :=
  startsWith xsltQuote s || startsWith xslQuote s

/-- Attempt to match the tail of the pattern
\.([[:alnum:]][[:alnum:]][[:alnum:]][[:alnum:]]?)\.xslt?" at the head of
the string, returning the captured group; the optional fourth group
character is preferred (greedy ?). -/
def matchTailAt : Str → Option Str
  | c0 :: c1 :: c2 :: c3 :: c4 :: rest =>
      if (c0 == '.') && isAlnumCh c1 && isAlnumCh c2 && isAlnumCh c3 then
        if isAlnumCh c4 && matchAfterGroup rest then some [c1, c2, c3, c4]
        else if matchAfterGroup (c4 :: rest) then some [c1, c2, c3]
        else none
      else none
  | _ => none

/-- Search for the match of the extension regex
".*\.([[:alnum:]][[:alnum:]][[:alnum:]][[:alnum:]]?)\.xslt?\".*"
used by GenNetlist on a custom plugin command; the leading greedy .*
makes the rightmost matching position win, so later positions are
preferred. -/
def extRESearch : Str → Option Str
  | [] => none
  | c :: rest =>
      match extRESearch rest with
      | some g => some g
      | none => matchTailAt (c :: rest)

/-- The proposed output-file extension computed by NETLIST_DIALOG::GenNetlist
after the switch on the current page's net type id: fileExt comes from
FilenamePrms, and only the default (custom) branch replaces it with the
regex capture when the plugin command matches. -/
def genNetlistFileExt (netType : NETLIST_TYPE_ID) (command : Str) : Str :=
  let fileExt := (FilenamePrms netType).ext
  match netType with
  | .custom _ =>
      match extRESearch command with
      | some g => g
      | none => fileExt
  | _ => fileExt

/-- The command string matches the regular expression
".*\.([[:alnum:]][[:alnum:]][[:alnum:]][[:alnum:]]?)\.xslt?\".*":
it decomposes around a dot, a 3- or 4-character alphanumeric group, and
the \.xslt?" tail. -/
def PatternMatches (cmd : Str) : Prop :=
  ∃ p g t, cmd = p ++ '.' :: (g ++ t) ∧ (g.length = 3 ∨ g.length = 4) ∧
    g.all isAlnumCh = true ∧ matchAfterGroup t = true

/-- The title and command text controls of one installed custom page
(m_TitleStringCtrl / m_CommandStringCtrl of NETLIST_PAGE_DIALOG). -/
structure CustomPage where
  title : Str
  command : Str
deriving DecidableEq, Repr

/-- The slice of the persisted configuration the dialog touches: the
values stored under the keys CustomNetlistTitle{n} and
CustomNetlistCommand{n}, indexed by the numeric key suffix n. -/
structure NetCfg where
  title : Nat → Str
  command : Nat → Str

/-- m_config->Write on key CustomNetlistTitle{k}. -/
def writeTitleKey (cfg : NetCfg) (k : Nat) (v : Str) : NetCfg :=
  { cfg with title := fun n => if n = k then v else cfg.title n }

/-- m_config->Write on key CustomNetlistCommand{k}. -/
def writeCommandKey (cfg : NetCfg) (k : Nat) (v : Str) : NetCfg :=
  { cfg with command := fun n => if n = k then v else cfg.command n }

/-- First loop of WriteCurrentNetlistSetup: walk the installed custom
pages (the non-null entries of m_PanelNetType from PANELCUSTOMBASE on,
which are contiguous), skip pages whose title control is empty, and
write the title and the command of every kept page under the next free
key suffix jj + 1; returns the final jj and the updated configuration. -/
def writeCustomPagesLoop : List CustomPage → Nat → NetCfg → Nat × NetCfg
  | [], jj, cfg => (jj, cfg)
  | page :: rest, jj, cfg =>
      if page.title = [] then writeCustomPagesLoop rest jj cfg
      else
        writeCustomPagesLoop rest (jj + 1)
          (writeCommandKey (writeTitleKey cfg (jj + 1) page.title) (jj + 1) page.command)

/-- Second loop of WriteCurrentNetlistSetup, written with the explicit
iteration count 8 - jj: for each remaining suffix jj + 1 up to
CUSTOMPANEL_COUNTMAX = 8, write the empty string under both keys. -/
def writeEmptySlotsAux : Nat → Nat → NetCfg → NetCfg
  | 0, _, cfg => cfg
  | k + 1, jj, cfg =>
      writeEmptySlotsAux k (jj + 1)
        (writeCommandKey (writeTitleKey cfg (jj + 1) []) (jj + 1) [])

/-- Second loop of WriteCurrentNetlistSetup (for(; jj < 8; jj++)). -/
def writeEmptySlots (jj : Nat) (cfg : NetCfg) : NetCfg :=
  writeEmptySlotsAux (8 - jj) jj cfg

/-- NETLIST_DIALOG::WriteCurrentNetlistSetup restricted to its effect on
the persisted configuration (the NetlistUpdateOpt call it begins with
only touches the parent frame). -/
def WriteCurrentNetlistSetup (pages : List CustomPage) (cfg : NetCfg) : NetCfg :=
  let r := writeCustomPagesLoop pages 0 cfg
  writeEmptySlots r.1 r.2

/-- The fields of NETLIST_PAGE_DIALOG that the dialog logic reads:
net type id, page format name (the page label), the Default-format
checkbox, and the command and title text controls. -/
structure NetlistPage where
  idNetType : NETLIST_TYPE_ID
  pageNetFmtName : Str
  isCurrentFormat : Bool
  commandString : Str
  titleString : Str
deriving DecidableEq, Repr, Inhabited

/-- NETLIST_DIALOG::UserNetlistTypeName: reads the stored custom title
under key CustomNetlistTitle{index + 1}; the function's static counter
(reset by first_item) is made explicit as the index argument. -/
def UserNetlistTypeName (cfg : NetCfg) (index : Nat) : Str :=
  cfg.title (index + 1)

/-- NETLIST_PAGE_DIALOG constructor combined with AddOneCustomPage: the
page format name and the title control take the given title, the
command control takes the given command, and the Default-format
checkbox is set exactly when the title equals the dialog's default net
format name at construction time. -/
def mkCustomPage (dflt title command : Str) (id : NETLIST_TYPE_ID) : NetlistPage :=
  { idNetType := id, pageNetFmtName := title, isCurrentFormat := title == dflt,
    commandString := command, titleString := title }

/-- Loop of NETLIST_DIALOG::InstallCustomPages from slot ii with the
given number of slots remaining (out of CUSTOMPANEL_COUNTMAX = 8): read
the stored title of each slot, stop at the first empty one, otherwise
read the slot's command and install one page with net type id
NET_TYPE_CUSTOM1 + ii. -/
def installCustomPagesFrom (cfg : NetCfg) (dflt : Str) : Nat → Nat → List NetlistPage
  | _, 0 => []
  | ii, fuel + 1 =>
      if UserNetlistTypeName cfg ii = [] then []
      else
        mkCustomPage dflt (UserNetlistTypeName cfg ii) (cfg.command (ii + 1)) (.custom ii)
          :: installCustomPagesFrom cfg dflt (ii + 1) fuel

/-- NETLIST_DIALOG::InstallCustomPages. -/
def InstallCustomPages (cfg : NetCfg) (dflt : Str) : List NetlistPage :=
  installCustomPagesFrom cfg dflt 0 8

/-- NETLIST_PAGE_DIALOG constructor for one of the four built-in pages:
the page format name is the page title and the Default-format checkbox
is set exactly when the title equals the dialog's default net format
name at construction time; the command and title controls of the model
start empty (the Spice page's command control is irrelevant here). -/
def mkFixedPage (dflt title : Str) (id : NETLIST_TYPE_ID) : NetlistPage :=
  { idNetType := id, pageNetFmtName := title, isCurrentFormat := title == dflt,
    commandString := [], titleString := [] }

/-- The page list built by the NETLIST_DIALOG constructor: Pcbnew,
OrcadPCB2, CadStar, Spice, then the installed custom pages. -/
def initialPages (cfg : NetCfg) (dflt : Str) : List NetlistPage :=
  mkFixedPage dflt (str "Pcbnew") .pcbnew ::
  mkFixedPage dflt (str "OrcadPCB2") .orcadpcb2 ::
  mkFixedPage dflt (str "CadStar") .cadstar ::
  mkFixedPage dflt (str "Spice") .spice ::
  InstallCustomPages cfg dflt

/-- m_IsCurrentFormat->SetValue(b) on the page at index i, leaving
every other page unchanged. -/
def setCheckbox : List NetlistPage → Nat → Bool → List NetlistPage
  | [], _, _ => []
  | p :: ps, 0, b => { p with isCurrentFormat := b } :: ps
  | p :: ps, i + 1, b => p :: setCheckbox ps i b

/-- The dialog state the default-format logic manipulates: the notebook
pages in panel order (index 0 = PANELPCBNEW), the dialog's
m_DefaultNetFmtName, and the parent frame's netlist format name. -/
structure DialogState where
  pages : List NetlistPage
  defaultNetFmtName : Str
  parentFmtName : Str
deriving DecidableEq, Repr

/-- The NETLIST_DIALOG constructor: m_DefaultNetFmtName is read from the
parent frame, the pages are built with checkboxes reflecting that name
(m_asFormatSelected records whether any page matched), and when no
format got selected the Pcbnew page's checkbox is set and its name
becomes the default format name. -/
def initDialog (cfg : NetCfg) (parentFmt : Str) : DialogState :=
  let pages := initialPages cfg parentFmt
  if pages.any (fun p => p.isCurrentFormat) then
    { pages := pages, defaultNetFmtName := parentFmt, parentFmtName := parentFmt }
  else
    { pages := setCheckbox pages 0 true,
      defaultNetFmtName := (str "Pcbnew"), parentFmtName := parentFmt }

/-- NETLIST_DIALOG::SelectDefaultNetlistType with the current notebook
page at index cur (none when GetCurrentPage() is NULL): every page's
Default-format checkbox is cleared; with a current page present, that
page's checkbox is then set and its format name becomes both the
dialog's default format name and the parent frame's netlist format
name. -/
def SelectDefaultNetlistType (st : DialogState) (cur : Option Nat) : DialogState :=
  let cleared := st.pages.map (fun p => { p with isCurrentFormat := false })
  match cur with
  | none => { st with pages := cleared }
  | some i =>
      { pages := setCheckbox cleared i true,
        defaultNetFmtName := (st.pages.getD i default).pageNetFmtName,
        parentFmtName := (st.pages.getD i default).pageNetFmtName }

/-- wxWidgets constant wxID_OK. -/
def wxID_OK : Int := 5100

/-- Dialog return code NET_PLUGIN_CHANGE (declared in
invoke_sch_dialog.h; only its identity matters here). -/
def NET_PLUGIN_CHANGE : Int := 1

/-- Observable outcome of one run of NETLIST_DIALOG::GenNetlist: which
collaborator calls happened and how the dialog was closed. -/
structure GenNetlistOutcome where
  calledCreateNetlist : Bool
  messageShown : Option Str
  calledWriteNetListFile : Bool
  wroteSetup : Bool
  modalResult : Option Int
deriving DecidableEq, Repr

/-- NETLIST_DIALOG::GenNetlist from the point where the save-file dialog
returns: when the user cancelled there, the handler returns at once;
otherwise the netlist is obtained from the parent frame's CreateNetlist
(netlist is its result, null or an abstract netlist object); on null the
"Schematic netlist not available" message is shown and WriteNetListFile
is not called, otherwise writing is delegated to the parent frame's
WriteNetListFile; in both cases the setup is persisted via
WriteCurrentNetlistSetup and the dialog closed with wxID_OK. -/
def GenNetlistRun (fileDialogCancelled : Bool) (netlist : Option Unit) :
    GenNetlistOutcome :=
  if fileDialogCancelled then
    { calledCreateNetlist := false, messageShown := none,
      calledWriteNetListFile := false, wroteSetup := false, modalResult := none }
  else
    match netlist with
    | none =>
        { calledCreateNetlist := true,
          messageShown := some (str "Schematic netlist not available"),
          calledWriteNetListFile := false, wroteSetup := true,
          modalResult := some wxID_OK }
    | some _ =>
        { calledCreateNetlist := true, messageShown := none,
          calledWriteNetListFile := true, wroteSetup := true,
          modalResult := some wxID_OK }

/-- wxString white space (wxIsspace): blank, tab, and the other ASCII
white-space control characters. -/
def isWxSpace (c : Char) : Bool :=
  c == ' ' || c == '\t' || c == '\n' || c == '\x0d' || c == '\x0b' || c == '\x0c'

/-- wxString::Trim(false): remove leading white space. -/
def trimLeft (s : Str) : Str := s.dropWhile isWxSpace

/-- wxString::Trim(true): remove trailing white space. -/
def trimRight (s : Str) : Str := (s.reverse.dropWhile isWxSpace).reverse

/-- wxString::BeforeFirst(ch): everything before the first occurrence of
ch, the whole string when ch does not occur. -/
def beforeFirst (ch : Char) (s : Str) : Str := s.takeWhile (fun c => c != ch)

/-- wxString::AfterFirst(ch): everything after the first occurrence of
ch, the empty string when ch does not occur. -/
def afterFirst (ch : Char) (s : Str) : Str := (s.dropWhile (fun c => c != ch)).drop 1

/-- wxFileName as far as RunSimulator uses it: directory part (with its
trailing separator), base name, extension. -/
structure FileNameRec where
  dir : Str
  name : Str
  ext : Str
deriving DecidableEq, Repr

/-- wxFileName::SetExt. -/
def setExt (fn : FileNameRec) (e : Str) : FileNameRec := { fn with ext := e }

/-- wxFileName::GetFullPath for a file name with a nonempty extension:
directory, base name, a dot, the extension. -/
def getFullPath (fn : FileNameRec) : Str := fn.dir ++ fn.name ++ '.' :: fn.ext

/-- Observable outcome of NETLIST_DIALOG::RunSimulator: the simulator
command saved to the parent frame, the executable and argument strings
handed to ExecuteFile, and whether ExecuteFile ran. -/
structure RunSimulatorOutcome where
  savedSimulatorCommand : Str
  execFile : Str
  commandLine : Str
  executedSimulator : Bool
deriving DecidableEq, Repr

/-- NETLIST_DIALOG::RunSimulator: the Spice page's command text is
trimmed on both sides and saved; the executable is the part before the
first space and the arguments the part after it; the schematic file
name with extension "cir" is appended in double quotes; ExecuteFile
runs only when the parent frame's WriteNetListFile succeeded. -/
def RunSimulatorRun (spiceCommandText : Str) (schFile : FileNameRec)
    (writeNetListFileOk : Bool) : RunSimulatorOutcome :=
  let tmp := trimRight (trimLeft spiceCommandText)
  { savedSimulatorCommand := tmp,
    execFile := beforeFirst ' ' tmp,
    commandLine :=
      afterFirst ' ' tmp ++ str " \"" ++ getFullPath (setExt schFile (str "cir"))
        ++ str "\"",
    executedSimulator := writeNetListFileOk }

/-- Outcome of NETLIST_DIALOG_ADD_GENERATOR::OnOKClick: the error
message shown, if any, and whether the sub-dialog closed with wxID_OK. -/
structure OKClickOutcome where
  messageShown : Option Str
  closedOK : Bool
deriving DecidableEq, Repr

/-- NETLIST_DIALOG_ADD_GENERATOR::OnOKClick on the contents of the
command and title text fields. -/
def OnOKClick (command title : Str) : OKClickOutcome :=
  if command = [] then
    { messageShown := some (str "Error. You must provide a command String"),
      closedOK := false }
  else if title = [] then
    { messageShown := some (str "Error. You must provide a Title"),
      closedOK := false }
  else
    { messageShown := none, closedOK := true }

/-- The custom-page controls persisted by WriteCurrentNetlistSetup. -/
def pageControls (p : NetlistPage) : CustomPage :=
  ⟨p.titleString, p.commandString⟩

/-- Outcome of NETLIST_DIALOG::OnAddGenerator: the custom page slots,
the configuration, the message shown, and the EndModal code. -/
structure AddGeneratorOutcome where
  customPages : List NetlistPage
  cfg : NetCfg
  messageShown : Option Str
  modalResult : Option Int

/-- NETLIST_DIALOG::OnAddGenerator: if the sub-dialog was not closed
with wxID_OK nothing happens; if the title equals the page format name
of an installed custom page, the "This plugin already exists. Abort"
message is shown and the handler returns without touching the panel
array or the configuration; otherwise a page is added in the first
unused slot (overwriting the last slot when all 8 are full — the C++
casts the panel index PANELCUSTOMBASE + ii to NETLIST_TYPE_ID there,
modelled as the slot's custom id), the setup is persisted and the
dialog closes with NET_PLUGIN_CHANGE. -/
def OnAddGenerator (customPages : List NetlistPage) (cfg : NetCfg) (dflt : Str)
    (subDialogOK : Bool) (title command : Str) : AddGeneratorOutcome :=
  if subDialogOK = false then
    { customPages := customPages, cfg := cfg, messageShown := none,
      modalResult := none }
  else if title ∈ customPages.map (fun p => p.pageNetFmtName) then
    { customPages := customPages, cfg := cfg,
      messageShown := some (str "This plugin already exists. Abort"),
      modalResult := none }
  else
    let slot := min customPages.length 7
    let pages' := customPages.take slot ++ [mkCustomPage dflt title command (.custom slot)]
    { customPages := pages',
      cfg := WriteCurrentNetlistSetup (pages'.map pageControls) cfg,
      messageShown := none,
      modalResult := some NET_PLUGIN_CHANGE }

/-- m_CommandStringCtrl->SetValue("") and m_TitleStringCtrl->SetValue("")
on the page at index i, leaving every other page unchanged. -/
def clearControls : List NetlistPage → Nat → List NetlistPage
  | [], _ => []
  | p :: ps, 0 => { p with commandString := [], titleString := [] } :: ps
  | p :: ps, i + 1 => p :: clearControls ps i

/-- Outcome of NETLIST_DIALOG::OnDelGenerator: the updated page list,
whether WriteCurrentNetlistSetup ran, and the EndModal code. -/
structure DelGeneratorOutcome where
  pages : List NetlistPage
  wroteSetup : Bool
  modalResult : Int
deriving DecidableEq, Repr

/-- NETLIST_DIALOG::OnDelGenerator with the current notebook page at
index cur in the page list (index 0 = the Pcbnew page): clear the
current page's command and title controls; if its Default-format
checkbox was checked, uncheck it and check the Pcbnew page's; then
persist the setup and close the dialog with NET_PLUGIN_CHANGE. -/
def OnDelGenerator (pages : List NetlistPage) (cur : Nat) : DelGeneratorOutcome :=
  let cleared := clearControls pages cur
  let pages' :=
    if (pages.getD cur default).isCurrentFormat then
      setCheckbox (setCheckbox cleared cur false) 0 true
    else cleared
  { pages := pages', wroteSetup := true, modalResult := NET_PLUGIN_CHANGE }

/-- Outcome of InvokeDialogNetList: the netlist format name written back
to the calling frame, whether SaveProjectSettings ran, and the return
value. -/
structure InvokeOutcome where
  finalFmtName : Str
  savedProjectSettings : Bool
  ret : Int
deriving DecidableEq, Repr

/-- InvokeDialogNetList: currDefaultNetformat is the caller's format
name read when the dialog was opened, dlgDefaultFmt and dlgRet the
dialog's m_DefaultNetFmtName and ShowModal result when it closed.  The
final name is always written back through SetNetListFormatName, and
SaveProjectSettings runs only when that name differs from the one in
effect at open time. -/
def InvokeDialogNetList (currDefaultNetformat dlgDefaultFmt : Str) (dlgRet : Int) :
    InvokeOutcome :=
  { finalFmtName := dlgDefaultFmt,
    savedProjectSettings := currDefaultNetformat != dlgDefaultFmt,
    ret := dlgRet }

end DialogNetlist

namespace DialogNetlist

theorem startsWith_iff (p s : Str) : startsWith p s = true ↔ ∃ r, s = p ++ r := by
  induction p generalizing s with
  | nil => simp [startsWith]
  | cons a ps ih =>
    cases s with
    | nil => simp [startsWith]
    | cons b ss =>
      simp only [startsWith, Bool.and_eq_true, beq_iff_eq, ih]
      constructor
      · rintro ⟨rfl, r, rfl⟩
        exact ⟨r, rfl⟩
      · rintro ⟨r, hr⟩
        injection hr with h1 h2
        exact ⟨h1.symm, r, h2⟩

theorem matchTailAt_sound {s g : Str} (h : matchTailAt s = some g) :
    ∃ t, s = '.' :: (g ++ t) ∧ (g.length = 3 ∨ g.length = 4) ∧
      g.all isAlnumCh = true ∧ matchAfterGroup t = true := by
  match s with
  | [] => simp [matchTailAt] at h
  | [c0] => simp [matchTailAt] at h
  | [c0, c1] => simp [matchTailAt] at h
  | [c0, c1, c2] => simp [matchTailAt] at h
  | [c0, c1, c2, c3] => simp [matchTailAt] at h
  | c0 :: c1 :: c2 :: c3 :: c4 :: rest =>
    simp only [matchTailAt] at h
    split_ifs at h with h1 h2 h3
    · simp only [Option.some.injEq] at h
      subst h
      simp only [Bool.and_eq_true, beq_iff_eq] at h1 h2
      obtain ⟨⟨⟨hc0, ha1⟩, ha2⟩, ha3⟩ := h1
      obtain ⟨ha4, hag⟩ := h2
      subst hc0
      exact ⟨rest, by simp, Or.inr rfl, by simp [List.all, ha1, ha2, ha3, ha4], hag⟩
    · simp only [Option.some.injEq] at h
      subst h
      simp only [Bool.and_eq_true, beq_iff_eq] at h1
      obtain ⟨⟨⟨hc0, ha1⟩, ha2⟩, ha3⟩ := h1
      subst hc0
      exact ⟨c4 :: rest, by simp, Or.inl rfl, by simp [List.all, ha1, ha2, ha3], h3⟩

theorem extRESearch_sound {s g : Str} (h : extRESearch s = some g) :
    ∃ p t, s = p ++ '.' :: (g ++ t) ∧ (g.length = 3 ∨ g.length = 4) ∧
      g.all isAlnumCh = true ∧ matchAfterGroup t = true := by
  induction s with
  | nil => simp [extRESearch] at h
  | cons c rest ih =>
    rw [extRESearch] at h
    cases hrec : extRESearch rest with
    | some g' =>
      rw [hrec] at h
      simp only [Option.some.injEq] at h
      subst h
      obtain ⟨p, t, hdec, hrest⟩ := ih hrec
      exact ⟨c :: p, t, by simp [hdec], hrest⟩
    | none =>
      rw [hrec] at h
      obtain ⟨t, hdec, hrest⟩ := matchTailAt_sound h
      exact ⟨[], t, by simp [hdec], hrest⟩

theorem matchTailAt_complete {g t : Str}
    (hlen : g.length = 3 ∨ g.length = 4) (halnum : g.all isAlnumCh = true)
    (hafter : matchAfterGroup t = true) :
    (matchTailAt ('.' :: (g ++ t))).isSome := by
  have hdot : isAlnumCh '.' = false := by decide
  rcases hlen with h3 | h4
  · obtain ⟨a, b, c, rfl⟩ := List.length_eq_three.mp h3
    have ht : ∃ d t', t = d :: t' := by
      rcases (Bool.or_eq_true _ _).mp hafter with hx | hx
      · obtain ⟨r, rfl⟩ := (startsWith_iff _ _).mp hx
        exact ⟨_, _, rfl⟩
      · obtain ⟨r, rfl⟩ := (startsWith_iff _ _).mp hx
        exact ⟨_, _, rfl⟩
    obtain ⟨d, t', rfl⟩ := ht
    have hd : d = '.' := by
      rcases (Bool.or_eq_true _ _).mp hafter with hx | hx
      · obtain ⟨r, hr⟩ := (startsWith_iff _ _).mp hx
        exact (List.cons.injEq _ _ _ _ ▸ hr).1
      · obtain ⟨r, hr⟩ := (startsWith_iff _ _).mp hx
        exact (List.cons.injEq _ _ _ _ ▸ hr).1
    subst hd
    simp only [List.all, Bool.and_eq_true] at halnum
    simp only [List.cons_append, List.nil_append, matchTailAt, beq_self_eq_true,
      Bool.true_and, halnum.1, halnum.2.1, halnum.2.2.1, Bool.and_true, if_true,
      hdot, Bool.false_and, if_false, hafter]
    simp
  · have : ∃ a g', g = a :: g' ∧ g'.length = 3 := by
      cases g with
      | nil => simp at h4
      | cons a g' => exact ⟨a, g', rfl, by simpa using h4⟩
    obtain ⟨a, g', rfl, h3'⟩ := this
    obtain ⟨b, c, d, rfl⟩ := List.length_eq_three.mp h3'
    simp only [List.all, Bool.and_eq_true] at halnum
    simp only [List.cons_append, matchTailAt, beq_self_eq_true, Bool.true_and,
      halnum.1, halnum.2.1, halnum.2.2.1, halnum.2.2.2.1, Bool.and_true,
      Bool.true_and, hafter]
    simp [hafter]

theorem extRESearch_isSome_of_matches {s : Str} (h : PatternMatches s) :
    (extRESearch s).isSome := by
  obtain ⟨p, g, t, hs, hlen, halnum, hafter⟩ := h
  subst hs
  induction p with
  | nil =>
    simp only [List.nil_append]
    rw [extRESearch]
    cases hrec : extRESearch (g ++ t) with
    | some g' => simp
    | none => exact matchTailAt_complete hlen halnum hafter
  | cons c p' ih =>
    simp only [List.cons_append]
    rw [extRESearch]
    cases hrec : extRESearch (p' ++ '.' :: (g ++ t)) with
    | some g' => simp
    | none => rw [hrec] at ih; simp at ih

/-- Claim C1: when GenNetlist runs on a custom (plugin) page, the
proposed output-file extension comes from the regular-expression match
".*\.([[:alnum:]][[:alnum:]][[:alnum:]][[:alnum:]]?)\.xslt?\".*" on the
plugin command: if the command matches, the extension is the captured
3- or 4-character alphanumeric group; if it does not match, the
extension remains the empty value FilenamePrms assigns to custom
formats. -/
theorem GenNetlist_custom_extension (i : Nat) (cmd : Str) :
    (PatternMatches cmd →
      ∃ g p t, extRESearch cmd = some g ∧
        genNetlistFileExt (.custom i) cmd = g ∧
        (g.length = 3 ∨ g.length = 4) ∧ g.all isAlnumCh = true ∧
        cmd = p ++ '.' :: (g ++ t) ∧ matchAfterGroup t = true) ∧
    (¬ PatternMatches cmd →
      genNetlistFileExt (.custom i) cmd = (FilenamePrms (.custom i)).ext ∧
      (FilenamePrms (.custom i)).ext = []) := by
  constructor
  · intro h
    have hsome := extRESearch_isSome_of_matches h
    cases hg : extRESearch cmd with
    | none => rw [hg] at hsome; simp at hsome
    | some g =>
      obtain ⟨p, t, hdecomp, hlen, halnum, hafter⟩ := extRESearch_sound hg
      exact ⟨g, p, t, rfl, by simp [genNetlistFileExt, hg], hlen, halnum, hdecomp, hafter⟩
  · intro h
    cases hg : extRESearch cmd with
    | some g =>
      obtain ⟨p, t, hdecomp, hlen, halnum, hafter⟩ := extRESearch_sound hg
      exact absurd ⟨p, g, t, hdecomp, hlen, halnum, hafter⟩ h
    | none => exact ⟨by simp [genNetlistFileExt, hg], rfl⟩

/-- Witness for claim C1 at a concrete matching command. -/
theorem GenNetlist_custom_extension_witness :
    PatternMatches (str "xsltproc -o \"o\" \"n.form.xsl\" \"i\"") ∧
    genNetlistFileExt (.custom 0) (str "xsltproc -o \"o\" \"n.form.xsl\" \"i\"") =
      str "form" := by
  have hm : PatternMatches (str "xsltproc -o \"o\" \"n.form.xsl\" \"i\"") :=
    ⟨str "xsltproc -o \"o\" \"n", str "form", str ".xsl\" \"i\"",
      by decide, Or.inr (by decide), by decide, by decide⟩
  obtain ⟨g, p, t, hsome, heq, _⟩ :=
    (GenNetlist_custom_extension 0 (str "xsltproc -o \"o\" \"n.form.xsl\" \"i\"")).1 hm
  have h2 : extRESearch (str "xsltproc -o \"o\" \"n.form.xsl\" \"i\"") =
      some (str "form") := by decide
  rw [h2] at hsome
  injection hsome with hs
  exact ⟨hm, by rw [heq, hs]⟩

/-- Claim C6: FilenamePrms returns true and a fixed extension for each
built-in format — "cir" for SPICE, "frp" for CADSTAR, the standard
netlist extension for PCBNEW and ORCADPCB2 — and for every custom net
type id returns false, assigns the all-files wildcard, and leaves the
extension empty. -/
theorem FilenamePrms_cases :
    FilenamePrms .spice = ⟨true, str "cir", SpiceNetlistFileWildcard⟩ ∧
    FilenamePrms .cadstar = ⟨true, str "frp", CadstarNetlistFileWildcard⟩ ∧
    FilenamePrms .pcbnew = ⟨true, NetlistFileExtension, NetlistFileWildcard⟩ ∧
    FilenamePrms .orcadpcb2 = ⟨true, NetlistFileExtension, NetlistFileWildcard⟩ ∧
    ∀ i : Nat, FilenamePrms (.custom i) = ⟨false, [], AllFilesWildcard⟩ := by
  refine ⟨rfl, rfl, rfl, rfl, fun i => rfl⟩

theorem writeCustomPagesLoop_spec (pages : List CustomPage) :
    ∀ (jj : Nat) (cfg : NetCfg),
      (writeCustomPagesLoop pages jj cfg).1
          = jj + (pages.filter (fun p => p.title ≠ [])).length ∧
      (∀ n, n ≤ jj →
        (writeCustomPagesLoop pages jj cfg).2.title n = cfg.title n ∧
        (writeCustomPagesLoop pages jj cfg).2.command n = cfg.command n) ∧
      (∀ k (h : k < (pages.filter (fun p => p.title ≠ [])).length),
        (writeCustomPagesLoop pages jj cfg).2.title (jj + k + 1)
            = ((pages.filter (fun p => p.title ≠ [])).get ⟨k, h⟩).title ∧
        (writeCustomPagesLoop pages jj cfg).2.command (jj + k + 1)
            = ((pages.filter (fun p => p.title ≠ [])).get ⟨k, h⟩).command) := by
  induction pages with
  | nil =>
    intro jj cfg
    refine ⟨by simp [writeCustomPagesLoop], fun n _ => ⟨rfl, rfl⟩, fun k h => ?_⟩
    simp at h
  | cons page rest ih =>
    intro jj cfg
    by_cases hp : page.title = []
    · have hfilter : (page :: rest).filter (fun p => p.title ≠ [])
          = rest.filter (fun p => p.title ≠ []) := by
        simp [List.filter_cons, hp]
      have hstep : writeCustomPagesLoop (page :: rest) jj cfg
          = writeCustomPagesLoop rest jj cfg := by
        rw [writeCustomPagesLoop, if_pos hp]
      rw [hstep, hfilter]
      exact ih jj cfg
    · have hfilter : (page :: rest).filter (fun p => p.title ≠ [])
          = page :: rest.filter (fun p => p.title ≠ []) := by
        simp [List.filter_cons, hp]
      have hstep : writeCustomPagesLoop (page :: rest) jj cfg
          = writeCustomPagesLoop rest (jj + 1)
              (writeCommandKey (writeTitleKey cfg (jj + 1) page.title) (jj + 1)
                page.command) := by
        rw [writeCustomPagesLoop, if_neg hp]
      obtain ⟨ih1, ih2, ih3⟩ :=
        ih (jj + 1) (writeCommandKey (writeTitleKey cfg (jj + 1) page.title) (jj + 1)
          page.command)
      rw [hstep, hfilter]
      refine ⟨?_, ?_, ?_⟩
      · rw [ih1]
        simp only [List.length_cons]
        omega
      · intro n hn
        obtain ⟨t, c⟩ := ih2 n (by omega)
        constructor
        · rw [t]
          simp only [writeCommandKey, writeTitleKey]
          rw [if_neg (by omega)]
        · rw [c]
          simp only [writeCommandKey, writeTitleKey]
          rw [if_neg (by omega)]
      · intro k h
        cases k with
        | zero =>
          obtain ⟨t, c⟩ := ih2 (jj + 1) (le_refl _)
          have e1 : jj + 0 + 1 = jj + 1 := by omega
          constructor
          · rw [e1, t]
            simp [writeCommandKey, writeTitleKey]
          · rw [e1, c]
            simp [writeCommandKey, writeTitleKey]
        | succ k' =>
          have h' : k' < (rest.filter (fun p => p.title ≠ [])).length := by
            simpa using h
          obtain ⟨t, c⟩ := ih3 k' h'
          have e1 : jj + (k' + 1) + 1 = jj + 1 + k' + 1 := by omega
          constructor
          · rw [e1, t]
            simp
          · rw [e1, c]
            simp

theorem writeEmptySlotsAux_spec (fuel : Nat) :
    ∀ (jj : Nat) (cfg : NetCfg),
      (∀ n, jj < n → n ≤ jj + fuel →
        (writeEmptySlotsAux fuel jj cfg).title n = [] ∧
        (writeEmptySlotsAux fuel jj cfg).command n = []) ∧
      (∀ n, n ≤ jj ∨ jj + fuel < n →
        (writeEmptySlotsAux fuel jj cfg).title n = cfg.title n ∧
        (writeEmptySlotsAux fuel jj cfg).command n = cfg.command n) := by
  induction fuel with
  | zero =>
    intro jj cfg
    exact ⟨fun n h1 h2 => absurd h2 (by omega), fun n _ => ⟨rfl, rfl⟩⟩
  | succ f ih =>
    intro jj cfg
    rw [writeEmptySlotsAux]
    obtain ⟨ihset, ihkeep⟩ :=
      ih (jj + 1) (writeCommandKey (writeTitleKey cfg (jj + 1) []) (jj + 1) [])
    constructor
    · intro n h1 h2
      by_cases hn : n = jj + 1
      · subst hn
        obtain ⟨t, c⟩ := ihkeep (jj + 1) (Or.inl (le_refl _))
        constructor
        · rw [t]
          simp [writeCommandKey, writeTitleKey]
        · rw [c]
          simp [writeCommandKey, writeTitleKey]
      · exact ihset n (by omega) (by omega)
    · intro n hn
      obtain ⟨t, c⟩ := ihkeep n (by omega)
      constructor
      · rw [t]
        simp only [writeCommandKey, writeTitleKey]
        rw [if_neg (by omega)]
      · rw [c]
        simp only [writeCommandKey, writeTitleKey]
        rw [if_neg (by omega)]

/-- Claim C2: WriteCurrentNetlistSetup persists the installed custom
pages with a non-empty title, in page order, under consecutive keys
CustomNetlistTitle{j} / CustomNetlistCommand{j} starting at j = 1
(empty-title pages are skipped and consume no key), and then writes the
empty string to both keys for every remaining j up to 8, so stale slots
never survive a save. -/
theorem WriteCurrentNetlistSetup_compacts (pages : List CustomPage) (cfg : NetCfg)
    (hlen : pages.length ≤ 8) :
    ∀ j, 1 ≤ j → j ≤ 8 →
      (∀ h : j - 1 < (pages.filter (fun p => p.title ≠ [])).length,
        (WriteCurrentNetlistSetup pages cfg).title j
            = ((pages.filter (fun p => p.title ≠ [])).get ⟨j - 1, h⟩).title ∧
        (WriteCurrentNetlistSetup pages cfg).command j
            = ((pages.filter (fun p => p.title ≠ [])).get ⟨j - 1, h⟩).command) ∧
      ((pages.filter (fun p => p.title ≠ [])).length < j →
        (WriteCurrentNetlistSetup pages cfg).title j = [] ∧
        (WriteCurrentNetlistSetup pages cfg).command j = []) := by
  intro j h1 h8
  obtain ⟨hlen1, hkeep1, hvals⟩ := writeCustomPagesLoop_spec pages 0 cfg
  have hkl : (writeCustomPagesLoop pages 0 cfg).1
      = (pages.filter (fun p => p.title ≠ [])).length := by
    rw [hlen1]
    omega
  have hWU : WriteCurrentNetlistSetup pages cfg
      = writeEmptySlotsAux (8 - (writeCustomPagesLoop pages 0 cfg).1)
          (writeCustomPagesLoop pages 0 cfg).1 (writeCustomPagesLoop pages 0 cfg).2 := rfl
  obtain ⟨eset, ekeep⟩ :=
    writeEmptySlotsAux_spec (8 - (writeCustomPagesLoop pages 0 cfg).1)
      (writeCustomPagesLoop pages 0 cfg).1 (writeCustomPagesLoop pages 0 cfg).2
  have hkle : (writeCustomPagesLoop pages 0 cfg).1 ≤ 8 := by
    rw [hkl]
    exact le_trans (List.length_filter_le _ _) hlen
  constructor
  · intro h
    have hj : j ≤ (writeCustomPagesLoop pages 0 cfg).1 := by omega
    obtain ⟨t, c⟩ := ekeep j (Or.inl hj)
    obtain ⟨tv, cv⟩ := hvals (j - 1) (by omega)
    have e1 : 0 + (j - 1) + 1 = j := by omega
    rw [e1] at tv cv
    exact ⟨by rw [hWU, t, tv], by rw [hWU, c, cv]⟩
  · intro h
    exact eset j (by omega) (by omega)

/-- Witness for claim C2 on a concrete page list with an empty-title
page between two kept pages. -/
theorem WriteCurrentNetlistSetup_compacts_witness :
    (WriteCurrentNetlistSetup
        [⟨str "A", str "ca"⟩, ⟨[], str "x"⟩, ⟨str "B", str "cb"⟩]
        ⟨fun _ => str "junk", fun _ => str "junk"⟩).title 2 = str "B" ∧
    (WriteCurrentNetlistSetup
        [⟨str "A", str "ca"⟩, ⟨[], str "x"⟩, ⟨str "B", str "cb"⟩]
        ⟨fun _ => str "junk", fun _ => str "junk"⟩).title 3 = [] := by
  have h := WriteCurrentNetlistSetup_compacts
    [⟨str "A", str "ca"⟩, ⟨[], str "x"⟩, ⟨str "B", str "cb"⟩]
    ⟨fun _ => str "junk", fun _ => str "junk"⟩ (by simp)
  obtain ⟨hin, _⟩ := h 2 (by omega) (by omega)
  obtain ⟨_, hout⟩ := h 3 (by omega) (by omega)
  obtain ⟨t2, _⟩ := hin (by decide)
  obtain ⟨t3, _⟩ := hout (by decide)
  constructor
  · rw [t2]
    decide
  · exact t3

theorem installCustomPagesFrom_spec (cfg : NetCfg) (dflt : Str) (fuel : Nat) :
    ∀ ii : Nat,
      (installCustomPagesFrom cfg dflt ii fuel).length ≤ fuel ∧
      (∀ j (h : j < (installCustomPagesFrom cfg dflt ii fuel).length),
        (installCustomPagesFrom cfg dflt ii fuel).get ⟨j, h⟩
            = mkCustomPage dflt (UserNetlistTypeName cfg (ii + j))
                (cfg.command (ii + j + 1)) (.custom (ii + j)) ∧
        UserNetlistTypeName cfg (ii + j) ≠ []) ∧
      (∀ k, k < fuel → UserNetlistTypeName cfg (ii + k) = [] →
        (installCustomPagesFrom cfg dflt ii fuel).length ≤ k) := by
  induction fuel with
  | zero =>
    intro ii
    refine ⟨by simp [installCustomPagesFrom], fun j h => ?_, fun k hk => by omega⟩
    simp [installCustomPagesFrom] at h
  | succ f ih =>
    intro ii
    by_cases hp : UserNetlistTypeName cfg ii = []
    · have hstep : installCustomPagesFrom cfg dflt ii (f + 1) = [] := by
        rw [installCustomPagesFrom, if_pos hp]
      rw [hstep]
      exact ⟨by simp, fun j h => by simp at h, fun k _ _ => by simp⟩
    · have hstep : installCustomPagesFrom cfg dflt ii (f + 1)
          = mkCustomPage dflt (UserNetlistTypeName cfg ii) (cfg.command (ii + 1))
              (.custom ii) :: installCustomPagesFrom cfg dflt (ii + 1) f := by
        rw [installCustomPagesFrom, if_neg hp]
      obtain ⟨ih1, ih2, ih3⟩ := ih (ii + 1)
      rw [hstep]
      refine ⟨by simpa using ih1, ?_, ?_⟩
      · intro j h
        cases j with
        | zero => exact ⟨by simp, by simpa using hp⟩
        | succ j' =>
          have h' : j' < (installCustomPagesFrom cfg dflt (ii + 1) f).length := by
            simpa using h
          obtain ⟨hg, hne⟩ := ih2 j' h'
          have e1 : ii + (j' + 1) = ii + 1 + j' := by omega
          constructor
          · rw [e1]
            simpa using hg
          · rw [e1]
            exact hne
      · intro k hk hempty
        cases k with
        | zero => exact absurd (by simpa using hempty) hp
        | succ k' =>
          have hrec := ih3 k' (by omega)
            (by rw [show ii + 1 + k' = ii + (k' + 1) from by omega]; exact hempty)
          simp only [List.length_cons]
          omega

/-- Claim C3: the dialog enumerates at most CUSTOMPANEL_COUNTMAX = 8
custom plugin slots: InstallCustomPages reads the stored titles via
UserNetlistTypeName in slot order and installs one custom notebook page
per slot with net type id NET_TYPE_CUSTOM1 + slot index, stopping at
the first slot whose stored title is empty, so no custom page is
installed for any slot at or after the first empty title. -/
theorem InstallCustomPages_slots (cfg : NetCfg) (dflt : Str) :
    (InstallCustomPages cfg dflt).length ≤ 8 ∧
    (∀ j (h : j < (InstallCustomPages cfg dflt).length),
      ((InstallCustomPages cfg dflt).get ⟨j, h⟩).idNetType = .custom j ∧
      ((InstallCustomPages cfg dflt).get ⟨j, h⟩).pageNetFmtName
          = UserNetlistTypeName cfg j ∧
      ((InstallCustomPages cfg dflt).get ⟨j, h⟩).commandString = cfg.command (j + 1) ∧
      UserNetlistTypeName cfg j ≠ []) ∧
    (∀ k, k < 8 → UserNetlistTypeName cfg k = [] →
      (InstallCustomPages cfg dflt).length ≤ k) := by
  obtain ⟨h1, h2, h3⟩ := installCustomPagesFrom_spec cfg dflt 8 0
  refine ⟨h1, fun j h => ?_, fun k hk he => h3 k hk (by simpa using he)⟩
  obtain ⟨hg, hne⟩ := h2 j h
  rw [show (0 : Nat) + j = j from by omega] at hg hne
  refine ⟨?_, ?_, ?_, hne⟩
  · show ((installCustomPagesFrom cfg dflt 0 8).get ⟨j, h⟩).idNetType = .custom j
    rw [hg]
    rfl
  · show ((installCustomPagesFrom cfg dflt 0 8).get ⟨j, h⟩).pageNetFmtName
        = UserNetlistTypeName cfg j
    rw [hg]
    rfl
  · show ((installCustomPagesFrom cfg dflt 0 8).get ⟨j, h⟩).commandString
        = cfg.command (j + 1)
    rw [hg]
    rfl

/-- Witness for claim C3 on a configuration whose slot-2 title is empty. -/
theorem InstallCustomPages_slots_witness :
    (InstallCustomPages
        ⟨fun n => if n = 1 then str "T1" else [], fun _ => str "cmd"⟩
        (str "Pcbnew")).length ≤ 1 ∧
    UserNetlistTypeName
        ⟨fun n => if n = 1 then str "T1" else [], fun _ => str "cmd"⟩ 1 = [] := by
  obtain ⟨h1, h2, h3⟩ := InstallCustomPages_slots
    ⟨fun n => if n = 1 then str "T1" else [], fun _ => str "cmd"⟩ (str "Pcbnew")
  exact ⟨h3 1 (by omega) (by decide), by decide⟩


/-- Claim C10: InvokeDialogNetList always writes the dialog's final
default format name back to the calling frame via SetNetListFormatName,
and calls SaveProjectSettings exactly when that name differs from the
default format name in effect when the dialog was opened; when the name
is unchanged the project settings file is not rewritten. -/
theorem InvokeDialogNetList_saves_iff_changed (curr dlgFmt : Str) (ret : Int) :
    (InvokeDialogNetList curr dlgFmt ret).finalFmtName = dlgFmt ∧
    ((InvokeDialogNetList curr dlgFmt ret).savedProjectSettings = true ↔
        curr ≠ dlgFmt) ∧
    (curr = dlgFmt →
        (InvokeDialogNetList curr dlgFmt ret).savedProjectSettings = false) ∧
    (InvokeDialogNetList curr dlgFmt ret).ret = ret := by
  refine ⟨rfl, ?_, ?_, rfl⟩
  · simp [InvokeDialogNetList]
  · intro h
    simp [InvokeDialogNetList, h]

/-- Witness for claim C10: an unchanged name does not save. -/
theorem InvokeDialogNetList_saves_iff_changed_witness :
    (InvokeDialogNetList (str "Pcbnew") (str "Pcbnew") 0).savedProjectSettings
        = false :=
  (InvokeDialogNetList_saves_iff_changed (str "Pcbnew") (str "Pcbnew") 0).2.2.1 rfl

/-- Claim C5: GenNetlist never computes or writes a netlist itself: it
obtains the netlist from the parent frame's CreateNetlist; when that is
null it reports "Schematic netlist not available" and does not call
WriteNetListFile, otherwise it delegates the writing to the parent
frame's WriteNetListFile; in either case it persists the current
netlist setup and closes the dialog with wxID_OK. -/
theorem GenNetlist_delegates (netlist : Option Unit) :
    (GenNetlistRun false netlist).calledCreateNetlist = true ∧
    (netlist = none →
      (GenNetlistRun false netlist).messageShown
          = some (str "Schematic netlist not available") ∧
      (GenNetlistRun false netlist).calledWriteNetListFile = false) ∧
    (∀ x, netlist = some x →
      (GenNetlistRun false netlist).messageShown = none ∧
      (GenNetlistRun false netlist).calledWriteNetListFile = true) ∧
    (GenNetlistRun false netlist).wroteSetup = true ∧
    (GenNetlistRun false netlist).modalResult = some wxID_OK := by
  cases netlist with
  | none => exact ⟨rfl, fun _ => ⟨rfl, rfl⟩, fun x hx => by simp at hx, rfl, rfl⟩
  | some x => exact ⟨rfl, fun h => by simp at h, fun y _ => ⟨rfl, rfl⟩, rfl, rfl⟩

/-- Witness for claim C5: the null-netlist branch. -/
theorem GenNetlist_delegates_witness :
    (GenNetlistRun false none).messageShown
        = some (str "Schematic netlist not available") ∧
    (GenNetlistRun false none).calledWriteNetListFile = false :=
  (GenNetlist_delegates none).2.1 rfl

theorem setCheckbox_length (ps : List NetlistPage) (i : Nat) (b : Bool) :
    (setCheckbox ps i b).length = ps.length := by
  induction ps generalizing i with
  | nil => rfl
  | cons p ps ih =>
    cases i with
    | zero => rfl
    | succ i' => simp [setCheckbox, ih]

theorem setCheckbox_get (ps : List NetlistPage) (i : Nat) (b : Bool) (j : Nat)
    (h : j < ps.length) (h2 : j < (setCheckbox ps i b).length) :
    (setCheckbox ps i b).get ⟨j, h2⟩
        = if j = i then { ps.get ⟨j, h⟩ with isCurrentFormat := b }
          else ps.get ⟨j, h⟩ := by
  induction ps generalizing i j with
  | nil => simp at h
  | cons p ps ih =>
    cases i with
    | zero =>
      cases j with
      | zero => simp [setCheckbox]
      | succ j' => simp [setCheckbox]
    | succ i' =>
      cases j with
      | zero => simp [setCheckbox]
      | succ j' =>
        have h' : j' < ps.length := by simpa using h
        have h2' : j' < (setCheckbox ps i' b).length := by
          rw [setCheckbox_length]
          exact h'
        simpa [setCheckbox] using ih i' j' h' h2'

theorem installCustomPagesFrom_checkbox (cfg : NetCfg) (dflt : Str) (fuel : Nat) :
    ∀ ii p, p ∈ installCustomPagesFrom cfg dflt ii fuel →
      p.isCurrentFormat = (p.pageNetFmtName == dflt) := by
  induction fuel with
  | zero =>
    intro ii p hp
    simp [installCustomPagesFrom] at hp
  | succ f ih =>
    intro ii p hp
    by_cases he : UserNetlistTypeName cfg ii = []
    · rw [installCustomPagesFrom, if_pos he] at hp
      simp at hp
    · rw [installCustomPagesFrom, if_neg he] at hp
      rcases List.mem_cons.mp hp with h | h
      · subst h
        rfl
      · exact ih (ii + 1) p h

theorem initialPages_checkbox (cfg : NetCfg) (dflt : Str) (p : NetlistPage)
    (hp : p ∈ initialPages cfg dflt) :
    p.isCurrentFormat = (p.pageNetFmtName == dflt) := by
  simp only [initialPages, List.mem_cons] at hp
  rcases hp with rfl | rfl | rfl | rfl | h
  · rfl
  · rfl
  · rfl
  · rfl
  · exact installCustomPagesFrom_checkbox cfg dflt 8 0 p h


/-- Claim C4: after the dialog constructor finishes some page's
Default-format checkbox is set, falling back to the Pcbnew page (and
name) when no page name matches the stored default; and whenever
SelectDefaultNetlistType runs with a current notebook page present,
every page's checkbox is cleared, the current page's checkbox is set,
and m_DefaultNetFmtName and the parent frame's netlist format name both
become the current page's format name. -/
theorem SelectDefaultNetlistType_keeps_one_default (cfg : NetCfg) (parentFmt : Str)
    (st : DialogState) (i : Nat) (hi : i < st.pages.length) :
    (initDialog cfg parentFmt).pages.any (fun p => p.isCurrentFormat) = true ∧
    ((initialPages cfg parentFmt).all
        (fun p => p.pageNetFmtName != parentFmt) = true →
      (initDialog cfg parentFmt).pages.head?
          = some { mkFixedPage parentFmt (str "Pcbnew") .pcbnew with
                     isCurrentFormat := true } ∧
      (initDialog cfg parentFmt).defaultNetFmtName = str "Pcbnew") ∧
    (SelectDefaultNetlistType st (some i)).pages.length = st.pages.length ∧
    (∀ j (h : j < (SelectDefaultNetlistType st (some i)).pages.length),
      ((SelectDefaultNetlistType st (some i)).pages.get ⟨j, h⟩).isCurrentFormat
          = decide (j = i)) ∧
    (SelectDefaultNetlistType st (some i)).defaultNetFmtName
        = (st.pages.get ⟨i, hi⟩).pageNetFmtName ∧
    (SelectDefaultNetlistType st (some i)).parentFmtName
        = (st.pages.get ⟨i, hi⟩).pageNetFmtName := by
  have hany : (initDialog cfg parentFmt).pages.any (fun p => p.isCurrentFormat)
      = true := by
    by_cases hsel : (initialPages cfg parentFmt).any (fun p => p.isCurrentFormat)
        = true
    · simp only [initDialog]
      rw [if_pos hsel]
      exact hsel
    · simp only [initDialog]
      rw [if_neg hsel]
      simp [initialPages, setCheckbox]
  refine ⟨hany, ?_, ?_, ?_, ?_, ?_⟩
  · intro hall
    have hsel : (initialPages cfg parentFmt).any (fun p => p.isCurrentFormat)
        = false := by
      rw [List.any_eq_false]
      intro p hp
      rw [initialPages_checkbox cfg parentFmt p hp]
      have hne := List.all_eq_true.mp hall p hp
      simp only [bne_iff_ne, ne_eq] at hne
      simp [hne]
    constructor
    · simp only [initDialog]
      rw [if_neg (by simp [hsel])]
      rfl
    · simp only [initDialog]
      rw [if_neg (by simp [hsel])]
  · simp [SelectDefaultNetlistType, setCheckbox_length]
  · intro j h
    have hj : j < st.pages.length := by
      simpa [SelectDefaultNetlistType, setCheckbox_length] using h
    have hmap : j < (st.pages.map
        (fun p => { p with isCurrentFormat := false })).length := by
      simpa using hj
    have h' : j < (setCheckbox
        (st.pages.map (fun p => { p with isCurrentFormat := false })) i true).length := h
    have hget := setCheckbox_get
      (st.pages.map (fun p => { p with isCurrentFormat := false })) i true j hmap h'
    show ((setCheckbox (st.pages.map (fun p => { p with isCurrentFormat := false }))
        i true).get ⟨j, h'⟩).isCurrentFormat = decide (j = i)
    rw [hget]
    by_cases hji : j = i
    · simp [hji]
    · rw [if_neg hji, List.get_map]
      simp [hji]
  · show (st.pages.getD i default).pageNetFmtName
        = (st.pages.get ⟨i, hi⟩).pageNetFmtName
    rw [List.getD_eq_get _ _ hi]
  · show (st.pages.getD i default).pageNetFmtName
        = (st.pages.get ⟨i, hi⟩).pageNetFmtName
    rw [List.getD_eq_get _ _ hi]

/-- Witness for claim C4 on a concrete two-page dialog state. -/
theorem SelectDefaultNetlistType_keeps_one_default_witness :
    (SelectDefaultNetlistType
        ⟨[mkFixedPage (str "x") (str "Pcbnew") .pcbnew,
          mkFixedPage (str "x") (str "Spice") .spice], str "x", str "x"⟩
        (some 1)).defaultNetFmtName = str "Spice" ∧
    (initDialog ⟨fun _ => [], fun _ => []⟩ (str "CadStar")).pages.any
        (fun p => p.isCurrentFormat) = true := by
  obtain ⟨hany, _, _, _, hd, _⟩ :=
    SelectDefaultNetlistType_keeps_one_default ⟨fun _ => [], fun _ => []⟩
      (str "CadStar")
      ⟨[mkFixedPage (str "x") (str "Pcbnew") .pcbnew,
        mkFixedPage (str "x") (str "Spice") .spice], str "x", str "x"⟩ 1
      (by simp)
  refine ⟨?_, hany⟩
  rw [hd]
  rfl


theorem clearControls_length (ps : List NetlistPage) (i : Nat) :
    (clearControls ps i).length = ps.length := by
  induction ps generalizing i with
  | nil => rfl
  | cons p ps ih =>
    cases i with
    | zero => rfl
    | succ i' => simp [clearControls, ih]

theorem clearControls_get (ps : List NetlistPage) (i : Nat) (j : Nat)
    (h : j < ps.length) (h2 : j < (clearControls ps i).length) :
    (clearControls ps i).get ⟨j, h2⟩
        = if j = i then
            { ps.get ⟨j, h⟩ with commandString := [], titleString := [] }
          else ps.get ⟨j, h⟩ := by
  induction ps generalizing i j with
  | nil => simp at h
  | cons p ps ih =>
    cases i with
    | zero =>
      cases j with
      | zero => simp [clearControls]
      | succ j' => simp [clearControls]
    | succ i' =>
      cases j with
      | zero => simp [clearControls]
      | succ j' =>
        have h' : j' < ps.length := by simpa using h
        have h2' : j' < (clearControls ps i').length := by
          rw [clearControls_length]
          exact h'
        simpa [clearControls] using ih i' j' h' h2'

theorem setCheckbox_getD (ps : List NetlistPage) (i : Nat) (b : Bool) (j : Nat)
    (h : j < ps.length) :
    (setCheckbox ps i b).getD j default
        = if j = i then { ps.getD j default with isCurrentFormat := b }
          else ps.getD j default := by
  have h2 : j < (setCheckbox ps i b).length := by
    rw [setCheckbox_length]
    exact h
  rw [List.getD_eq_get _ _ h2, List.getD_eq_get _ _ h, setCheckbox_get ps i b j h h2]

theorem clearControls_getD (ps : List NetlistPage) (i : Nat) (j : Nat)
    (h : j < ps.length) :
    (clearControls ps i).getD j default
        = if j = i then
            { ps.getD j default with commandString := [], titleString := [] }
          else ps.getD j default := by
  have h2 : j < (clearControls ps i).length := by
    rw [clearControls_length]
    exact h
  rw [List.getD_eq_get _ _ h2, List.getD_eq_get _ _ h, clearControls_get ps i j h h2]

/-- Claim C9: OnDelGenerator clears the current custom page's title and
command fields; if that page's Default-format checkbox was checked, it
unchecks it and checks the Pcbnew page's checkbox, so some page stays
marked as the default format; and it persists the setup and closes the
dialog with NET_PLUGIN_CHANGE. -/
theorem OnDelGenerator_preserves_default (pages : List NetlistPage) (cur : Nat)
    (hcur : cur < pages.length) (h0 : 0 < cur) :
    (OnDelGenerator pages cur).pages.length = pages.length ∧
    ((OnDelGenerator pages cur).pages.getD cur default).commandString = [] ∧
    ((OnDelGenerator pages cur).pages.getD cur default).titleString = [] ∧
    ((pages.getD cur default).isCurrentFormat = true →
      ((OnDelGenerator pages cur).pages.getD cur default).isCurrentFormat = false ∧
      ((OnDelGenerator pages cur).pages.getD 0 default).isCurrentFormat = true) ∧
    ((∃ j, j < pages.length ∧ (pages.getD j default).isCurrentFormat = true) →
      ∃ j, j < (OnDelGenerator pages cur).pages.length ∧
        ((OnDelGenerator pages cur).pages.getD j default).isCurrentFormat = true) ∧
    (OnDelGenerator pages cur).wroteSetup = true ∧
    (OnDelGenerator pages cur).modalResult = NET_PLUGIN_CHANGE := by
  have hlenC := clearControls_length pages cur
  have hC_cur : (clearControls pages cur).getD cur default
      = { pages.getD cur default with commandString := [], titleString := [] } := by
    rw [clearControls_getD pages cur cur hcur, if_pos rfl]
  have hlen1 : (setCheckbox (clearControls pages cur) cur false).length
      = pages.length := by
    rw [setCheckbox_length, hlenC]
  by_cases hchk : (pages.getD cur default).isCurrentFormat = true
  · have hPP : (OnDelGenerator pages cur).pages
        = setCheckbox (setCheckbox (clearControls pages cur) cur false) 0 true := by
      show (if (pages.getD cur default).isCurrentFormat = true
          then setCheckbox (setCheckbox (clearControls pages cur) cur false) 0 true
          else clearControls pages cur) = _
      rw [if_pos hchk]
    have hS1_cur : (setCheckbox (clearControls pages cur) cur false).getD cur default
        = { (clearControls pages cur).getD cur default with isCurrentFormat := false } := by
      rw [setCheckbox_getD _ cur false cur (by omega), if_pos rfl]
    have hS1_zero : (setCheckbox (clearControls pages cur) cur false).getD 0 default
        = (clearControls pages cur).getD 0 default := by
      rw [setCheckbox_getD _ cur false 0 (by omega), if_neg (by omega)]
    have hS2_cur : (OnDelGenerator pages cur).pages.getD cur default
        = { (clearControls pages cur).getD cur default with isCurrentFormat := false } := by
      rw [hPP, setCheckbox_getD _ 0 true cur (by omega), if_neg (by omega), hS1_cur]
    have hS2_zero : (OnDelGenerator pages cur).pages.getD 0 default
        = { (clearControls pages cur).getD 0 default with isCurrentFormat := true } := by
      rw [hPP, setCheckbox_getD _ 0 true 0 (by omega), if_pos rfl, hS1_zero]
    have hlen : (OnDelGenerator pages cur).pages.length = pages.length := by
      rw [hPP, setCheckbox_length, hlen1]
    refine ⟨hlen, ?_, ?_, fun _ => ⟨?_, ?_⟩, ?_, rfl, rfl⟩
    · rw [hS2_cur, hC_cur]
    · rw [hS2_cur, hC_cur]
    · rw [hS2_cur]
    · rw [hS2_zero]
    · intro _
      exact ⟨0, by omega, by rw [hS2_zero]⟩
  · have hPP : (OnDelGenerator pages cur).pages = clearControls pages cur := by
      show (if (pages.getD cur default).isCurrentFormat = true
          then setCheckbox (setCheckbox (clearControls pages cur) cur false) 0 true
          else clearControls pages cur) = _
      rw [if_neg hchk]
    have hlen : (OnDelGenerator pages cur).pages.length = pages.length := by
      rw [hPP, hlenC]
    refine ⟨hlen, ?_, ?_, fun hc => absurd hc hchk, ?_, rfl, rfl⟩
    · rw [hPP, hC_cur]
    · rw [hPP, hC_cur]
    · rintro ⟨j, hj, hb⟩
      by_cases hjc : j = cur
      · subst hjc
        exact absurd hb hchk
      · refine ⟨j, by omega, ?_⟩
        rw [hPP, clearControls_getD pages cur j hj, if_neg hjc]
        exact hb

/-- Witness for claim C9: deleting a checked custom page at index 1
moves the default mark to the Pcbnew page at index 0. -/
theorem OnDelGenerator_preserves_default_witness :
    ((OnDelGenerator
        [mkFixedPage (str "T") (str "Pcbnew") .pcbnew,
         mkCustomPage (str "T") (str "T") (str "c") (.custom 0)] 1).pages.getD 1
          default).commandString = [] ∧
    ((OnDelGenerator
        [mkFixedPage (str "T") (str "Pcbnew") .pcbnew,
         mkCustomPage (str "T") (str "T") (str "c") (.custom 0)] 1).pages.getD 0
          default).isCurrentFormat = true := by
  obtain ⟨hlen, hcmd, htit, hflip, hinv, hws, hmr⟩ :=
    OnDelGenerator_preserves_default
      [mkFixedPage (str "T") (str "Pcbnew") .pcbnew,
       mkCustomPage (str "T") (str "T") (str "c") (.custom 0)] 1 (by simp) (by omega)
  obtain ⟨hoff, hon⟩ := hflip (by decide)
  exact ⟨hcmd, hon⟩


/-- Claim C8: a custom generator can only be added with a non-empty
command string and a non-empty title that differs from the page format
name of every installed custom page: the add-generator sub-dialog's OK
handler closes with wxID_OK exactly when both fields are non-empty (and
shows an error otherwise), and OnAddGenerator shows "This plugin
already exists. Abort" and returns without modifying the panel array or
the stored configuration when the title duplicates an existing custom
page. -/
theorem OnAddGenerator_guards (customPages : List NetlistPage) (cfg : NetCfg)
    (dflt : Str) (title command : Str) :
    ((OnOKClick command title).closedOK = true ↔ command ≠ [] ∧ title ≠ []) ∧
    ((OnOKClick command title).closedOK = false →
      (OnOKClick command title).messageShown ≠ none) ∧
    (title ∈ customPages.map (fun p => p.pageNetFmtName) →
      (OnAddGenerator customPages cfg dflt true title command).customPages
          = customPages ∧
      (OnAddGenerator customPages cfg dflt true title command).cfg = cfg ∧
      (OnAddGenerator customPages cfg dflt true title command).messageShown
          = some (str "This plugin already exists. Abort") ∧
      (OnAddGenerator customPages cfg dflt true title command).modalResult
          = none) := by
  refine ⟨?_, ?_, ?_⟩
  · by_cases hc : command = []
    · simp [OnOKClick, hc]
    · by_cases ht : title = []
      · simp [OnOKClick, hc, ht]
      · simp [OnOKClick, hc, ht]
  · by_cases hc : command = []
    · simp [OnOKClick, hc]
    · by_cases ht : title = []
      · simp [OnOKClick, hc, ht]
      · simp [OnOKClick, hc, ht]
  · intro hmem
    have hPP : OnAddGenerator customPages cfg dflt true title command
        = { customPages := customPages, cfg := cfg,
            messageShown := some (str "This plugin already exists. Abort"),
            modalResult := none } := by
      rw [OnAddGenerator, if_neg (by simp), if_pos hmem]
    rw [hPP]
    exact ⟨rfl, rfl, rfl, rfl⟩

/-- Witness for claim C8: adding a duplicate title changes nothing, and
the OK handler accepts non-empty fields. -/
theorem OnAddGenerator_guards_witness :
    (OnAddGenerator [mkCustomPage [] (str "T") (str "c") (.custom 0)]
        ⟨fun _ => [], fun _ => []⟩ [] true (str "T") (str "cmd")).customPages
        = [mkCustomPage [] (str "T") (str "c") (.custom 0)] ∧
    (OnOKClick (str "cmd") (str "T")).closedOK = true := by
  obtain ⟨hiff, _, hdup⟩ := OnAddGenerator_guards
    [mkCustomPage [] (str "T") (str "c") (.custom 0)]
    ⟨fun _ => [], fun _ => []⟩ [] (str "T") (str "cmd")
  obtain ⟨hpages, _⟩ := hdup (by decide)
  exact ⟨hpages, hiff.mpr ⟨by decide, by decide⟩⟩

theorem dropWhile_head_not (p : Char → Bool) (l : Str) :
    ∀ c, (l.dropWhile p).head? = some c → p c = false := by
  induction l with
  | nil =>
    intro c hc
    simp [List.dropWhile] at hc
  | cons a t ih =>
    intro c hc
    by_cases hp : p a = true
    · rw [List.dropWhile_cons, if_pos hp] at hc
      exact ih c hc
    · rw [List.dropWhile_cons, if_neg hp] at hc
      simp only [List.head?_cons, Option.some.injEq] at hc
      subst hc
      simpa using hp

theorem trimLeft_spec (s : Str) :
    ∃ l, s = l ++ trimLeft s ∧ l.all isWxSpace = true ∧
      ∀ c, (trimLeft s).head? = some c → isWxSpace c = false := by
  refine ⟨s.takeWhile isWxSpace, (List.takeWhile_append_dropWhile isWxSpace s).symm,
    ?_, ?_⟩
  · exact List.all_eq_true.mpr fun x hx => List.mem_takeWhile_imp hx
  · exact dropWhile_head_not isWxSpace s

theorem trimRight_spec (s : Str) :
    ∃ r, s = trimRight s ++ r ∧ r.all isWxSpace = true ∧
      ∀ c, (trimRight s).getLast? = some c → isWxSpace c = false := by
  refine ⟨(s.reverse.takeWhile isWxSpace).reverse, ?_, ?_, ?_⟩
  · calc s = s.reverse.reverse := (List.reverse_reverse s).symm
    _ = (s.reverse.takeWhile isWxSpace ++ s.reverse.dropWhile isWxSpace).reverse := by
        rw [List.takeWhile_append_dropWhile]
    _ = (s.reverse.dropWhile isWxSpace).reverse
          ++ (s.reverse.takeWhile isWxSpace).reverse := by
        rw [List.reverse_append]
  · exact List.all_eq_true.mpr fun x hx =>
      List.mem_takeWhile_imp (List.mem_reverse.mp hx)
  · intro c hc
    simp only [trimRight] at hc
    rw [List.getLast?_reverse] at hc
    exact dropWhile_head_not isWxSpace s.reverse c hc

theorem trim_spec (s : Str) :
    ∃ l r, s = l ++ trimRight (trimLeft s) ++ r ∧
      l.all isWxSpace = true ∧ r.all isWxSpace = true ∧
      (∀ c, (trimRight (trimLeft s)).head? = some c → isWxSpace c = false) ∧
      (∀ c, (trimRight (trimLeft s)).getLast? = some c → isWxSpace c = false) := by
  obtain ⟨l, hl, hla, hlh⟩ := trimLeft_spec s
  obtain ⟨r, hr, hra, hrl⟩ := trimRight_spec (trimLeft s)
  refine ⟨l, r, ?_, hla, hra, ?_, hrl⟩
  · calc s = l ++ trimLeft s := hl
    _ = l ++ (trimRight (trimLeft s) ++ r) := by rw [← hr]
    _ = l ++ trimRight (trimLeft s) ++ r := by rw [List.append_assoc]
  · intro c hc
    apply hlh c
    rw [hr]
    cases ht : trimRight (trimLeft s) with
    | nil =>
      rw [ht] at hc
      simp at hc
    | cons a t =>
      rw [ht] at hc
      simp only [List.head?_cons, Option.some.injEq] at hc
      subst hc
      simp

theorem splitFirst_spec (ch : Char) (s : Str) :
    (ch ∈ s → s = beforeFirst ch s ++ ch :: afterFirst ch s) ∧
    (ch ∉ s → beforeFirst ch s = s ∧ afterFirst ch s = []) ∧
    ch ∉ beforeFirst ch s := by
  refine ⟨?_, ?_, ?_⟩
  · intro hmem
    have hne : s.dropWhile (fun c => c != ch) ≠ [] := by
      intro h
      have := List.dropWhile_eq_nil_iff.mp h ch hmem
      simp at this
    cases hd : s.dropWhile (fun c => c != ch) with
    | nil => exact absurd hd hne
    | cons a t =>
      have ha : a = ch := by
        have := dropWhile_head_not (fun c => c != ch) s a (by rw [hd]; rfl)
        simpa using this
      rw [ha] at hd
      have happ := List.takeWhile_append_dropWhile (fun c => c != ch) s
      rw [hd] at happ
      show s = s.takeWhile (fun c => c != ch)
          ++ ch :: (s.dropWhile (fun c => c != ch)).drop 1
      rw [hd]
      exact happ.symm
  · intro hmem
    have hall : ∀ x ∈ s, (fun c => c != ch) x = true := by
      intro x hx
      simp only [bne_iff_ne, ne_eq]
      intro hxe
      exact hmem (hxe ▸ hx)
    constructor
    · exact List.takeWhile_eq_self_iff.mpr hall
    · show (s.dropWhile (fun c => c != ch)).drop 1 = []
      rw [List.dropWhile_eq_nil_iff.mpr hall]
      rfl
  · intro hmem
    have := List.mem_takeWhile_imp hmem
    simp at this

/-- Claim C7: RunSimulator trims the Spice command text of leading and
trailing white space, takes the executable as the portion before the
first space and the arguments as the portion after it, appends the
schematic file name with its extension replaced by "cir" in double
quotes, and executes the external simulator exactly when the parent
frame's WriteNetListFile succeeds. -/
theorem RunSimulator_builds_command (spiceCommandText : Str) (schFile : FileNameRec)
    (ok : Bool) :
    (∃ l r, spiceCommandText
          = l ++ (RunSimulatorRun spiceCommandText schFile ok).savedSimulatorCommand
            ++ r ∧
        l.all isWxSpace = true ∧ r.all isWxSpace = true ∧
        (∀ c, (RunSimulatorRun spiceCommandText schFile
            ok).savedSimulatorCommand.head? = some c → isWxSpace c = false) ∧
        (∀ c, (RunSimulatorRun spiceCommandText schFile
            ok).savedSimulatorCommand.getLast? = some c → isWxSpace c = false)) ∧
    (RunSimulatorRun spiceCommandText schFile ok).commandLine
        = afterFirst ' '
            (RunSimulatorRun spiceCommandText schFile ok).savedSimulatorCommand
          ++ str " \"" ++ (schFile.dir ++ schFile.name ++ '.' :: str "cir")
          ++ str "\"" ∧
    (' ' ∈ (RunSimulatorRun spiceCommandText schFile ok).savedSimulatorCommand →
      (RunSimulatorRun spiceCommandText schFile ok).savedSimulatorCommand
          = (RunSimulatorRun spiceCommandText schFile ok).execFile ++ ' ' ::
            afterFirst ' '
              (RunSimulatorRun spiceCommandText schFile ok).savedSimulatorCommand) ∧
    (' ' ∉ (RunSimulatorRun spiceCommandText schFile ok).savedSimulatorCommand →
      (RunSimulatorRun spiceCommandText schFile ok).execFile
          = (RunSimulatorRun spiceCommandText schFile ok).savedSimulatorCommand ∧
      afterFirst ' '
          (RunSimulatorRun spiceCommandText schFile ok).savedSimulatorCommand = []) ∧
    ' ' ∉ (RunSimulatorRun spiceCommandText schFile ok).execFile ∧
    ((RunSimulatorRun spiceCommandText schFile ok).executedSimulator = true ↔
        ok = true) := by
  obtain ⟨l, r, hdecomp, hla, hra, hh, hl2⟩ := trim_spec spiceCommandText
  obtain ⟨hsplit1, hsplit2, hnotin⟩ :=
    splitFirst_spec ' ' (trimRight (trimLeft spiceCommandText))
  exact ⟨⟨l, r, hdecomp, hla, hra, hh, hl2⟩, rfl, hsplit1, hsplit2, hnotin, Iff.rfl⟩

/-- Witness for claim C7 on a concrete simulator command. -/
theorem RunSimulator_builds_command_witness :
    ' ' ∉ (RunSimulatorRun (str " ngspice -b ")
        ⟨str "/t/", str "s", str "sch"⟩ true).execFile ∧
    (RunSimulatorRun (str " ngspice -b ")
        ⟨str "/t/", str "s", str "sch"⟩ true).executedSimulator = true := by
  obtain ⟨_, _, _, _, hnotin, hiff⟩ := RunSimulator_builds_command
    (str " ngspice -b ") ⟨str "/t/", str "s", str "sch"⟩ true
  exact ⟨hnotin, hiff.mpr rfl⟩

end DialogNetlist
